import Mathlib

/-!
Verification of the credential and secret protection core of `go-infra`
(`pkg/crypto`: `encrypt.go`, `hash.go`, `jwt.go`, over `pkg/errors`).

The development is a shallow embedding of the Go sources:

* Go byte strings become `List Byte` with `Byte := Fin 256`; Go `string`
  values that are inspected character by character become Lean `String`.
* Machine integers become `Nat`/`Int`; `uint32`/`uint8` range constraints
  appear as explicit hypotheses where a theorem needs them.
* Fallible Go functions returning `(T, error)` become `Except AppError T`.
* External collaborators (the AES-GCM primitive, `argon2.IDKey`, the bcrypt
  library, the JWT signing primitives) are abstract parameters; everything
  the repository itself computes (envelope layout, base64, the PHC string
  format, hash splitting, substring matching on error text, the check
  order) is embedded as executable Lean definitions.
-/

/-- A Go byte. -/
abbrev Byte := Fin 256

/-! ### Model of Go `encoding/base64` (StdEncoding and RawStdEncoding)

`encrypt.go` uses `base64.StdEncoding` (padded) and `hash.go` uses
`base64.RawStdEncoding` (unpadded).  Both are modelled executably. -/

/-- The standard base64 alphabet, as a list of characters. -/
def b64AlphaChars : List Char :=
  "ABCDEFGHIJKLMNOPQRSTUVWXYZabcdefghijklmnopqrstuvwxyz0123456789+/".toList

/-- Character for a sextet. -/
def b64Char (i : Fin 64) : Char := b64AlphaChars.getD i.val 'A'

/-- Index of a character in the base64 alphabet, if any. -/
def b64Idx (c : Char) : Option (Fin 64) :=
  let i := b64AlphaChars.indexOf c
  if h : i < 64 then some ⟨i, h⟩ else none

/-- First sextet of a 3-byte group. -/
def sx1 (a : Byte) : Fin 64 :=
  ⟨a.val / 4, by have := a.isLt; omega⟩

/-- Second sextet (from bytes `a`, `b`). -/
def sx2 (a b : Byte) : Fin 64 :=
  ⟨a.val % 4 * 16 + b.val / 16, by have := a.isLt; have := b.isLt; omega⟩

/-- Third sextet (from bytes `b`, `c`). -/
def sx3 (b c : Byte) : Fin 64 :=
  ⟨b.val % 16 * 4 + c.val / 64, by have := b.isLt; have := c.isLt; omega⟩

/-- Fourth sextet of a 3-byte group. -/
def sx4 (c : Byte) : Fin 64 :=
  ⟨c.val % 64, by have := c.isLt; omega⟩

/-- First byte reassembled from two sextets. -/
def dByte1 (s1 s2 : Fin 64) : Byte :=
  ⟨s1.val * 4 + s2.val / 16, by have := s1.isLt; have := s2.isLt; omega⟩

/-- Second byte reassembled from two sextets. -/
def dByte2 (s2 s3 : Fin 64) : Byte :=
  ⟨s2.val % 16 * 16 + s3.val / 4, by have := s2.isLt; have := s3.isLt; omega⟩

/-- Third byte reassembled from two sextets. -/
def dByte3 (s3 s4 : Fin 64) : Byte :=
  ⟨s3.val % 4 * 64 + s4.val, by have := s3.isLt; have := s4.isLt; omega⟩

/-- Unpadded base64 encoding of a byte list, as characters
(`base64.RawStdEncoding.EncodeToString` without the padding). -/
def b64EncTriples : List Byte → List Char
  | [] => []
  | [a] => [b64Char (sx1 a), b64Char (sx2 a 0)]
  | [a, b] => [b64Char (sx1 a), b64Char (sx2 a b), b64Char (sx3 b 0)]
  | a :: b :: c :: rest =>
      b64Char (sx1 a) :: b64Char (sx2 a b) :: b64Char (sx3 b c) ::
        b64Char (sx4 c) :: b64EncTriples rest

/-- Model of `base64.RawStdEncoding.EncodeToString`. -/
def b64EncodeRaw (l : List Byte) : String := String.mk (b64EncTriples l)

/-- Model of `base64.StdEncoding.EncodeToString` (padded form). -/
def b64EncodeStd (l : List Byte) : String :=
  String.mk (b64EncTriples l ++
    (if l.length % 3 = 1 then ['=', '=']
     else if l.length % 3 = 2 then ['=']
     else []))

/-- Decode a run of base64 characters without padding, 4 characters to
3 bytes, allowing a final group of 2 or 3 characters; a final group of one
character, or any character outside the alphabet, is an error.  Model of
the quantum loop of Go `base64` decoding. -/
def b64DecQuads : List Char → Option (List Byte)
  | [] => some []
  | [_] => none
  | [c1, c2] =>
      match b64Idx c1, b64Idx c2 with
      | some s1, some s2 => some [dByte1 s1 s2]
      | _, _ => none
  | [c1, c2, c3] =>
      match b64Idx c1, b64Idx c2, b64Idx c3 with
      | some s1, some s2, some s3 => some [dByte1 s1 s2, dByte2 s2 s3]
      | _, _, _ => none
  | c1 :: c2 :: c3 :: c4 :: rest =>
      match b64Idx c1, b64Idx c2, b64Idx c3, b64Idx c4, b64DecQuads rest with
      | some s1, some s2, some s3, some s4, some bs =>
          some (dByte1 s1 s2 :: dByte2 s2 s3 :: dByte3 s3 s4 :: bs)
      | _, _, _, _, _ => none

/-- Model of `base64.RawStdEncoding.DecodeString`. -/
def b64DecodeRaw (s : String) : Option (List Byte) := b64DecQuads s.toList

/-- Number of leading padding characters of a character list. -/
def leadEqCount : List Char → Nat
  | [] => 0
  | c :: r => if c = '=' then leadEqCount r + 1 else 0

/-- Model of `base64.StdEncoding.DecodeString`: the length must be a
multiple of four, at most two trailing padding characters are allowed and
none elsewhere, and the unpadded body decodes as in the raw form. -/
def b64DecodeStd (s : String) : Option (List Byte) :=
  let cs := s.toList
  if cs.length % 4 ≠ 0 then none
  else
    let pad := leadEqCount cs.reverse
    if 3 ≤ pad then none
    else
      let body := cs.take (cs.length - pad)
      if '=' ∈ body then none else b64DecQuads body

/-! ### Model of decimal formatting and scanning (Go `fmt`)

`hash.go` prints Argon2 parameters with `fmt.Sprintf("%d", ...)` and reads
them back with `fmt.Sscanf`. -/

/-- Decimal digits with explicit fuel (structural recursion, so concrete
instances evaluate definitionally). -/
def natToDecAux : Nat → Nat → List Char
  | 0, _ => []
  | f + 1, n =>
    if n < 10 then [Nat.digitChar n]
    else natToDecAux f (n / 10) ++ [Nat.digitChar (n % 10)]

/-- Decimal digits of a natural number, most significant first
(model of `fmt.Sprintf("%d", n)` for unsigned values). -/
def natToDecChars (n : Nat) : List Char := natToDecAux (n + 1) n

/-- Decimal string of a natural number. -/
def natToDec (n : Nat) : String := String.mk (natToDecChars n)

/-- Value of a list of decimal digit characters, accumulated as Go's
scanner does. -/
def digitsVal (ds : List Char) : Nat :=
  ds.foldl (fun a c => a * 10 + (c.toNat - 48)) 0

/-- Scan a maximal nonempty run of decimal digits (the `%d` verb for an
unsigned destination); returns the value and the rest. -/
def scanDigits (cs : List Char) : Option (Nat × List Char) :=
  let ds := cs.takeWhile (fun c => c.isDigit)
  if ds.isEmpty then none
  else some (digitsVal ds, cs.dropWhile (fun c => c.isDigit))

/-- Scan one literal character. -/
def scanLit (c : Char) : List Char → Option (List Char)
  | [] => none
  | x :: r => if x = c then some r else none

/-- Model of `fmt.Sscanf(s, "v=%d", &version)` with an `int` destination:
the literal `v=`, an optional sign, then digits.  Trailing input is
ignored, as `Sscanf` does. -/
def scanVersion (s : String) : Option Int :=
  match scanLit 'v' s.toList with
  | none => none
  | some r1 =>
    match scanLit '=' r1 with
    | none => none
    | some r2 =>
      match r2 with
      | '-' :: r3 =>
        match scanDigits r3 with
        | none => none
        | some (n, _) => some (-(n : Int))
      | _ =>
        match scanDigits r2 with
        | none => none
        | some (n, _) => some (n : Int)

/-- Model of `fmt.Sscanf(s, "m=%d,t=%d,p=%d", &memory, &time, &threads)`
with `uint32`, `uint32` and `uint8` destinations: three unsigned decimal
fields with range checks, separated by the literal text. -/
def scanParams (s : String) : Option (Nat × Nat × Nat) :=
  match scanLit 'm' s.toList with
  | none => none
  | some r1 =>
  match scanLit '=' r1 with
  | none => none
  | some r2 =>
  match scanDigits r2 with
  | none => none
  | some (memory, r3) =>
  match scanLit ',' r3 with
  | none => none
  | some r4 =>
  match scanLit 't' r4 with
  | none => none
  | some r5 =>
  match scanLit '=' r5 with
  | none => none
  | some r6 =>
  match scanDigits r6 with
  | none => none
  | some (time, r7) =>
  match scanLit ',' r7 with
  | none => none
  | some r8 =>
  match scanLit 'p' r8 with
  | none => none
  | some r9 =>
  match scanLit '=' r9 with
  | none => none
  | some r10 =>
  match scanDigits r10 with
  | none => none
  | some (threads, _) =>
    if memory < 2 ^ 32 && time < 2 ^ 32 && threads < 2 ^ 8 then
      some (memory, time, threads)
    else none

/-! ### Model of `pkg/errors`

`AppError` carries a code, a user message and technical details; its
`Error()` method returns only the message.  Stack traces, timestamps and
the context map are introspection data with no bearing on control flow and
are not modelled. -/

/-- The error codes reachable from `pkg/crypto` (`pkg/errors/codes.go`). -/
inductive ErrorCode where
  | codeInternal
  | codeBadRequest
  | codeUnauthorized
  | codeInvalidToken
  | codeTokenExpired
deriving DecidableEq, Repr

/-- Model of `errors.AppError` (`pkg/errors`): code, message and details. -/
structure AppError where
  code : ErrorCode
  message : String
  details : String
deriving DecidableEq, Repr

/-- Model of `errors.New(code, message)` for a nonempty message. -/
def errNew (code : ErrorCode) (message : String) : AppError :=
  { code := code, message := message, details := "" }

/-- Model of `errors.BadRequest(message)`. -/
def errBadRequest (message : String) : AppError :=
  errNew ErrorCode.codeBadRequest message

/-- Model of `errors.Unauthorized(message)`. -/
def errUnauthorized (message : String) : AppError :=
  errNew ErrorCode.codeUnauthorized message

/-- Model of `errors.Internal(message)`. -/
def errInternal (message : String) : AppError :=
  errNew ErrorCode.codeInternal message

/-- Model of `e.WithDetails(details)`. -/
def AppError.withDetails (e : AppError) (details : String) : AppError :=
  { e with details := details }

/-- Model of `errors.Wrap(err, code, message)` for a cause that is not an
`AppError`: the cause's text becomes the details. -/
def errWrap (causeText : String) (code : ErrorCode) (message : String) : AppError :=
  { code := code, message := message, details := causeText }

/-- Model of `AppError.Error()`: the message (nonempty in every error this
package constructs). -/
def AppError.errText (e : AppError) : String := e.message

/-! ### SymmetricCipher: `pkg/crypto/encrypt.go`

The AES-GCM primitive (`crypto/aes` with `cipher.NewGCM`) is an external
collaborator, abstracted as `AEADModel`: a nonce size together with seal
and open operations for each key.  `aes.NewCipher` fails exactly on key
lengths other than 16, 24 and 32 bytes; `cipher.NewGCM` never fails on an
AES block and reports a fixed `NonceSize()`. -/

/-- Abstraction of the keyed AES-GCM primitive. -/
structure AEADModel where
  nonceSize : Nat
  sealOp : List Byte → List Byte → List Byte → List Byte
  opn : List Byte → List Byte → List Byte → Option (List Byte)

/-- Model of `crypto.EncryptionConfig`. -/
structure EncryptionConfig where
  key : List Byte
deriving DecidableEq

/-- Model of `crypto.Encryptor`. -/
structure Encryptor where
  config : EncryptionConfig
deriving DecidableEq

/-- The key-length test of `aes.NewCipher` (16, 24 or 32 bytes). -/
def validKeyLen (k : List Byte) : Bool :=
  k.length = 16 || k.length = 24 || k.length = 32

/-- Model of `crypto.NewEncryptor`. -/
def NewEncryptor (config : EncryptionConfig) : Except AppError Encryptor :=
  if validKeyLen config.key then Except.ok { config := config }
  else Except.error
    ((errBadRequest "encryption key must be 16, 24, or 32 bytes").withDetails
      "use GenerateAESKey() to generate a valid key")

/-- Model of `Encryptor.EncryptBytes`.  The fresh random nonce drawn from
`rand.Reader` is the `nonce` argument (callers guarantee its length is the
mode's nonce size); `gcm.Seal(nonce, nonce, plaintext, nil)` prepends the
nonce to the sealed data. -/
def Encryptor.EncryptBytes (G : AEADModel) (e : Encryptor) (nonce : List Byte)
    (plaintext : List Byte) : Except AppError (List Byte) :=
  if plaintext.isEmpty then
    Except.error (errBadRequest "plaintext cannot be empty")
  else if validKeyLen e.config.key then
    Except.ok (nonce ++ G.sealOp e.config.key nonce plaintext)
  else
    Except.error (errWrap "crypto/aes: invalid key size"
      ErrorCode.codeInternal "failed to create cipher")

/-- Model of `Encryptor.DecryptBytes`: reject empty input, build the
cipher, split off the nonce by the mode's nonce length, and open. -/
def Encryptor.DecryptBytes (G : AEADModel) (e : Encryptor)
    (ciphertext : List Byte) : Except AppError (List Byte) :=
  if ciphertext.isEmpty then
    Except.error (errBadRequest "ciphertext cannot be empty")
  else if validKeyLen e.config.key then
    if ciphertext.length < G.nonceSize then
      Except.error (errBadRequest "ciphertext too short")
    else
      match G.opn e.config.key (ciphertext.take G.nonceSize)
          (ciphertext.drop G.nonceSize) with
      | some plaintext => Except.ok plaintext
      | none => Except.error (errWrap "cipher: message authentication failed"
          ErrorCode.codeBadRequest "failed to decrypt: invalid ciphertext or key")
  else
    Except.error (errWrap "crypto/aes: invalid key size"
      ErrorCode.codeInternal "failed to create cipher")

/-- Model of `Encryptor.Encrypt` (string variant): the plaintext is the Go
string's bytes; the result is the standard base64 encoding of the sealed
envelope. -/
def Encryptor.Encrypt (G : AEADModel) (e : Encryptor) (nonce : List Byte)
    (plaintext : List Byte) : Except AppError String :=
  if plaintext.isEmpty then
    Except.error (errBadRequest "plaintext cannot be empty")
  else if validKeyLen e.config.key then
    Except.ok (b64EncodeStd (nonce ++ G.sealOp e.config.key nonce plaintext))
  else
    Except.error (errWrap "crypto/aes: invalid key size"
      ErrorCode.codeInternal "failed to create cipher")

/-- Model of `Encryptor.Decrypt` (string variant): reject empty input,
base64-decode, build the cipher, split the nonce, open.  The returned
plaintext is the byte string of the Go result. -/
def Encryptor.Decrypt (G : AEADModel) (e : Encryptor)
    (encodedCiphertext : String) : Except AppError (List Byte) :=
  if encodedCiphertext = "" then
    Except.error (errBadRequest "ciphertext cannot be empty")
  else
    match b64DecodeStd encodedCiphertext with
    | none => Except.error (errWrap "illegal base64 data"
        ErrorCode.codeBadRequest "failed to decode ciphertext")
    | some ciphertext =>
      if validKeyLen e.config.key then
        if ciphertext.length < G.nonceSize then
          Except.error (errBadRequest "ciphertext too short")
        else
          match G.opn e.config.key (ciphertext.take G.nonceSize)
              (ciphertext.drop G.nonceSize) with
          | some plaintext => Except.ok plaintext
          | none => Except.error (errWrap "cipher: message authentication failed"
              ErrorCode.codeBadRequest "failed to decrypt: invalid ciphertext or key")
      else
        Except.error (errWrap "crypto/aes: invalid key size"
          ErrorCode.codeInternal "failed to create cipher")

/-- Model of `crypto.GenerateAESKey(size)`: the requested size is a Go
`int`; the random bytes come from the stream `rand`. -/
def GenerateAESKey (rand : Nat → Byte) (size : Int) : Except AppError (List Byte) :=
  if size ≠ 16 ∧ size ≠ 24 ∧ size ≠ 32 then
    Except.error (errBadRequest "key size must be 16, 24, or 32 bytes")
  else
    Except.ok ((List.range size.toNat).map rand)

/-! ### PasswordHasher: the hashing part of `pkg/crypto` (`hash.go`)

`argon2.IDKey` and the bcrypt library are external collaborators.
`argon2.IDKey` is abstracted as a function from password, salt and the
four cost parameters to a digest; the bcrypt library as a pair of
generate and compare operations.  Passwords are Go strings, which are
byte strings; only the hash encodings are inspected as text. -/

/-- Abstraction of `argon2.IDKey(password, salt, time, memory, threads,
keyLen)`. -/
abbrev IDKeyFn := List Byte → List Byte → Nat → Nat → Nat → Nat → List Byte

/-- Outcome of `bcrypt.CompareHashAndPassword`. -/
inductive BcryptOutcome where
  | matched
  | mismatched
  | failed (msg : String)
deriving DecidableEq

/-- Abstraction of the bcrypt library: `generate salt cost password` is
`bcrypt.GenerateFromPassword` with its internally drawn random salt made
explicit, and `compare hash password` is `bcrypt.CompareHashAndPassword`. -/
structure BcryptModel where
  generate : List Byte → Int → List Byte → Except String String
  compare : String → List Byte → BcryptOutcome

/-- Model of `crypto.HashConfig`.  `BcryptCost` is a Go `int`; the Argon2
parameters are `uint32`/`uint8` values, carried as `Nat`. -/
structure HashConfig where
  bcryptCost : Int
  argon2Time : Nat
  argon2Memory : Nat
  argon2Threads : Nat
  argon2KeyLen : Nat
  argon2SaltLen : Nat
deriving DecidableEq

/-- Model of `crypto.DefaultHashConfig()`. -/
def DefaultHashConfig : HashConfig :=
  { bcryptCost := 10
    argon2Time := 1
    argon2Memory := 64 * 1024
    argon2Threads := 4
    argon2KeyLen := 32
    argon2SaltLen := 16 }

/-- Model of `crypto.Hasher`. -/
structure Hasher where
  config : HashConfig
deriving DecidableEq

/-- Model of `splitArgon2Hash`'s character loop: `current` accumulates
characters; each delimiter appends `current` to `parts`; a nonempty final
`current` is appended at the end (an empty one is dropped). -/
def splitGo : List Char → List Char → List (List Char) → List (List Char)
  | [], current, parts => if current.isEmpty then parts else parts ++ [current]
  | c :: cs, current, parts =>
      if c = '$' then splitGo cs [] (parts ++ [current])
      else splitGo cs (current ++ [c]) parts

/-- Model of `crypto.splitArgon2Hash`. -/
def splitArgon2Hash (hash : String) : List String :=
  (splitGo hash.toList [] []).map (fun l => String.mk l)

/-- Model of `Hasher.hashArgon2`'s PHC-format output for a given salt (the
fresh random salt drawn from `crypto/rand` is the `salt` argument). -/
def Hasher.hashArgon2 (idKey : IDKeyFn) (h : Hasher) (salt : List Byte)
    (password : List Byte) : String :=
  let hash := idKey password salt h.config.argon2Time h.config.argon2Memory
    h.config.argon2Threads h.config.argon2KeyLen
  "$argon2id$v=" ++ natToDec 19 ++
    "$m=" ++ natToDec h.config.argon2Memory ++
    ",t=" ++ natToDec h.config.argon2Time ++
    ",p=" ++ natToDec h.config.argon2Threads ++
    "$" ++ b64EncodeRaw salt ++ "$" ++ b64EncodeRaw hash

/-- Model of `Hasher.hashBcrypt`. -/
def Hasher.hashBcrypt (bc : BcryptModel) (h : Hasher) (salt : List Byte)
    (password : List Byte) : Except AppError String :=
  match bc.generate salt h.config.bcryptCost password with
  | Except.ok hash => Except.ok hash
  | Except.error msg =>
      Except.error (errWrap msg ErrorCode.codeInternal
        "failed to hash password with bcrypt")

/-- Model of `Hasher.HashPassword(password, algorithm)`.  `HashAlgorithm`
is a Go string type; the salt argument stands for the randomness the
chosen algorithm draws. -/
def Hasher.HashPassword (idKey : IDKeyFn) (bc : BcryptModel) (h : Hasher)
    (salt : List Byte) (password : List Byte) (algorithm : String) :
    Except AppError String :=
  if password.isEmpty then
    Except.error (errBadRequest "password cannot be empty")
  else if algorithm = "bcrypt" then
    h.hashBcrypt bc salt password
  else if algorithm = "argon2" then
    Except.ok (h.hashArgon2 idKey salt password)
  else
    Except.error ((errBadRequest "unsupported hashing algorithm").withDetails
      ("algorithm: " ++ algorithm))

/-- Model of `Hasher.compareBcrypt`: a mismatch is `(false, nil)`, any
other bcrypt error is wrapped. -/
def Hasher.compareBcrypt (bc : BcryptModel) (password : List Byte)
    (hash : String) : Except AppError Bool :=
  match bc.compare hash password with
  | BcryptOutcome.matched => Except.ok true
  | BcryptOutcome.mismatched => Except.ok false
  | BcryptOutcome.failed msg =>
      Except.error (errWrap msg ErrorCode.codeInternal
        "failed to compare bcrypt hash")

/-- Model of `Hasher.compareArgon2`: split the PHC string, check the field
count and the variant tag, scan version and parameters, decode salt and
digest, recompute the digest with the stored parameters and the decoded
digest's length, and compare in constant time. -/
def Hasher.compareArgon2 (idKey : IDKeyFn) (password : List Byte)
    (encodedHash : String) : Except AppError Bool :=
  let parts := splitArgon2Hash encodedHash
  if parts.length ≠ 6 then
    Except.error (errBadRequest "invalid argon2 hash format")
  else if parts.getD 1 "" ≠ "argon2id" then
    Except.error (errBadRequest "unsupported argon2 variant")
  else
    match scanVersion (parts.getD 2 "") with
    | none => Except.error (errWrap "input does not match format"
        ErrorCode.codeInternal "failed to parse version")
    | some _ =>
      match scanParams (parts.getD 3 "") with
      | none => Except.error (errWrap "input does not match format"
          ErrorCode.codeInternal "failed to parse parameters")
      | some (memory, time, threads) =>
        match b64DecodeRaw (parts.getD 4 "") with
        | none => Except.error (errWrap "illegal base64 data"
            ErrorCode.codeInternal "failed to decode salt")
        | some decodedSalt =>
          match b64DecodeRaw (parts.getD 5 "") with
          | none => Except.error (errWrap "illegal base64 data"
              ErrorCode.codeInternal "failed to decode hash")
          | some decodedHash =>
            let computedHash := idKey password decodedSalt time memory
              threads decodedHash.length
            if decodedHash = computedHash then Except.ok true
            else Except.ok false

/-- The bcrypt detection test of `Hasher.ComparePassword`: length above
four and the hash starts with a dollar sign then the digit two. -/
def bcryptDetect (hash : String) : Bool :=
  let cs := hash.toList
  decide (4 < cs.length) && (cs.getD 0 ' ' = '$') && (cs.getD 1 ' ' = '2')

/-- Model of `Hasher.ComparePassword(password, hash)`.  The verifying
hasher's own configuration is not consulted on either path. -/
def Hasher.ComparePassword (idKey : IDKeyFn) (bc : BcryptModel) (_h : Hasher)
    (password : List Byte) (hash : String) : Except AppError Bool :=
  if password.isEmpty || hash = "" then
    Except.error (errBadRequest "password and hash cannot be empty")
  else if bcryptDetect hash then
    Hasher.compareBcrypt bc password hash
  else
    Hasher.compareArgon2 idKey password hash

/-! ### TokenManager: `pkg/crypto/jwt.go`

The signing primitives of `github.com/golang-jwt/jwt/v5` are abstracted as
`SignModel`; the library's parse pipeline (keyfunc, signature check, then
registered-claims validation) and the exact texts of its errors are
modelled concretely, because `handleParseError` classifies errors by
substring-matching their text.  Tokens are modelled structurally (header
algorithm, claims, signature); the base64url wire form is the library's
own encode/decode round trip. -/

/-- Model of `crypto.JWTConfig`.  `JWTAlgorithm` is a Go string type;
RSA keys are opaque handles, `none` standing for a nil pointer. -/
structure JWTConfig where
  secret : String
  privateKey : Option Nat
  publicKey : Option Nat
  algorithm : String
  issuer : String
  audience : String
  accessTokenExpiry : Int
  refreshTokenExpiry : Int
deriving DecidableEq

/-- Model of `crypto.DefaultJWTConfig()` (expiries in seconds). -/
def DefaultJWTConfig : JWTConfig :=
  { secret := ""
    privateKey := none
    publicKey := none
    algorithm := "HS256"
    issuer := "go-infra"
    audience := "go-infra-api"
    accessTokenExpiry := 15 * 60
    refreshTokenExpiry := 7 * 24 * 60 * 60 }

/-- Model of `crypto.Claims`: the registered claims used by the package
plus the identity fields.  Temporal claims are optional Unix times; the
open `Custom` map is an association list. -/
structure Claims where
  issuer : String
  subject : String
  audience : List String
  expiresAt : Option Int
  notBefore : Option Int
  issuedAt : Option Int
  userID : String
  username : String
  email : String
  roles : List String
  custom : List (String × String)
deriving DecidableEq

/-- Model of `crypto.JWTManager`. -/
structure JWTManager where
  config : JWTConfig
deriving DecidableEq

/-- Model of `validateJWTConfig`. -/
def validateJWTConfig (config : JWTConfig) : Except AppError Unit :=
  if config.algorithm = "HS256" ∨ config.algorithm = "HS384" ∨
      config.algorithm = "HS512" then
    if config.secret = "" then
      Except.error (errBadRequest "secret is required for HMAC algorithms")
    else Except.ok ()
  else if config.algorithm = "RS256" ∨ config.algorithm = "RS384" ∨
      config.algorithm = "RS512" then
    if config.privateKey = none then
      Except.error (errBadRequest "private key is required for RSA algorithms")
    else if config.publicKey = none then
      Except.error (errBadRequest "public key is required for RSA algorithms")
    else Except.ok ()
  else
    Except.error ((errBadRequest "unsupported JWT algorithm").withDetails
      ("algorithm: " ++ config.algorithm))

/-- Model of `crypto.NewJWTManager` for a non-nil configuration. -/
def NewJWTManager (config : JWTConfig) : Except AppError JWTManager :=
  match validateJWTConfig config with
  | Except.error e => Except.error e
  | Except.ok _ => Except.ok { config := config }

/-- Model of `crypto.TokenType` (`"access"` or `"refresh"`). -/
inductive TokenType where
  | access
  | refresh
deriving DecidableEq

/-- Key material handed to the signing primitives, as returned by
`getSigningKey`/`getVerificationKey`. -/
inductive SigningKey where
  | hmacSecret (s : String)
  | rsaPrivateKey (k : Option Nat)
  | rsaPublicKey (k : Option Nat)
deriving DecidableEq

/-- Abstraction of the `jwt/v5` signing methods: signing produces an
opaque signature value, verification checks one. -/
structure SignModel where
  sign : String → SigningKey → Claims → Nat
  verify : String → SigningKey → Claims → Nat → Bool

/-- A parsed token: header algorithm, claims payload, signature. -/
structure Token where
  alg : String
  claims : Claims
  sig : Nat
deriving DecidableEq

/-- Model of `JWTManager.getSigningMethod` (with its default arm). -/
def JWTManager.getSigningMethod (m : JWTManager) : String :=
  if m.config.algorithm = "HS256" ∨ m.config.algorithm = "HS384" ∨
      m.config.algorithm = "HS512" ∨ m.config.algorithm = "RS256" ∨
      m.config.algorithm = "RS384" ∨ m.config.algorithm = "RS512" then
    m.config.algorithm
  else "HS256"

/-- Model of `JWTManager.getSigningKey` (with its default arm). -/
def JWTManager.getSigningKey (m : JWTManager) : SigningKey :=
  if m.config.algorithm = "RS256" ∨ m.config.algorithm = "RS384" ∨
      m.config.algorithm = "RS512" then
    SigningKey.rsaPrivateKey m.config.privateKey
  else SigningKey.hmacSecret m.config.secret

/-- Model of `JWTManager.getVerificationKey` (with its default arm). -/
def JWTManager.getVerificationKey (m : JWTManager) : SigningKey :=
  if m.config.algorithm = "RS256" ∨ m.config.algorithm = "RS384" ∨
      m.config.algorithm = "RS512" then
    SigningKey.rsaPublicKey m.config.publicKey
  else SigningKey.hmacSecret m.config.secret

/-- Model of `JWTManager.GenerateToken(claims, tokenType)` at wall-clock
time `now`: stamp issuer, audience, issued-at, expires-at and not-before
over the caller's claims, then sign.  The Go-side nil-claims check has no
counterpart for a Lean value; the abstract signing primitive is total, so
the `SignedString` error path is not taken. -/
def JWTManager.GenerateToken (S : SignModel) (m : JWTManager) (now : Int)
    (claims : Claims) (tokenType : TokenType) : Token :=
  let expiry := if tokenType = TokenType.access then m.config.accessTokenExpiry
    else m.config.refreshTokenExpiry
  let stamped := { claims with
    issuer := m.config.issuer
    audience := [m.config.audience]
    issuedAt := some now
    expiresAt := some (now + expiry)
    notBefore := some now }
  { alg := m.getSigningMethod
    claims := stamped
    sig := S.sign m.getSigningMethod m.getSigningKey stamped }

/-- The errors of the `jwt/v5` parse pipeline that this configuration can
produce: a keyfunc failure, a bad signature, or failed claims validation
(expired and/or not yet valid). -/
inductive JwtLibError where
  | keyfuncFailed (inner : AppError)
  | signatureInvalid
  | invalidClaims (expired notYet : Bool)
deriving DecidableEq

/-- The validation part of the message of an `invalidClaims` error, joined
as `jwt/v5` joins simultaneous validation errors. -/
def jwtValidationText (expired notYet : Bool) : String :=
  if expired then
    if notYet then "token is expired, token is not valid yet"
    else "token is expired"
  else if notYet then "token is not valid yet"
  else ""

/-- The `Error()` text of each modelled `jwt/v5` parse error. -/
def JwtLibError.errMsg : JwtLibError → String
  | JwtLibError.keyfuncFailed inner =>
      "token is unverifiable: error while executing keyfunc: " ++ inner.errText
  | JwtLibError.signatureInvalid =>
      "token signature is invalid: signature is invalid"
  | JwtLibError.invalidClaims expired notYet =>
      "token has invalid claims: " ++ jwtValidationText expired notYet

/-- Model of `jwt.ParseWithClaims` (v5): run the keyfunc, verify the
signature with the returned key, then validate the registered claims
(expiry strictly, not-before inclusively, zero leeway; issued-at is not
verified by default). -/
def parseWithClaims (S : SignModel) (now : Int)
    (keyfunc : Token → Except AppError SigningKey) (tok : Token) :
    Except JwtLibError Claims :=
  match keyfunc tok with
  | Except.error e => Except.error (JwtLibError.keyfuncFailed e)
  | Except.ok key =>
    if S.verify tok.alg key tok.claims tok.sig then
      let expired := match tok.claims.expiresAt with
        | none => false
        | some e => decide (e ≤ now)
      let notYet := match tok.claims.notBefore with
        | none => false
        | some nb => decide (now < nb)
      if expired || notYet then
        Except.error (JwtLibError.invalidClaims expired notYet)
      else Except.ok tok.claims
    else Except.error JwtLibError.signatureInvalid

/-- Model of the helper `containsHelper(s, substr)` in `jwt.go`. -/
def containsHelper (s substr : List Char) : Bool :=
  (List.range (s.length - substr.length + 1)).any
    (fun i => decide ((s.drop i).take substr.length = substr))

/-- Model of the helper `contains(s, substr)` in `jwt.go`, character for
character after the source's byte-slice comparisons (the compared texts
are ASCII). -/
def containsStr (s substr : String) : Bool :=
  let a := s.toList
  let b := substr.toList
  decide (b.length ≤ a.length) &&
    (decide (a = b) ||
      (decide (b.length < a.length) &&
        (decide (a.take b.length = b) ||
          decide (a.drop (a.length - b.length) = b) ||
          containsHelper a b)))

/-- Model of `JWTManager.handleParseError`, classifying the library
error's text by substring. -/
def handleParseError (errMsg : String) : AppError :=
  if containsStr errMsg "token is expired" || containsStr errMsg "exp" then
    errNew ErrorCode.codeTokenExpired "token has expired"
  else if containsStr errMsg "not valid yet" || containsStr errMsg "nbf" then
    errUnauthorized "token is not valid yet"
  else if containsStr errMsg "used before issued" || containsStr errMsg "iat" then
    errUnauthorized "token used before issued"
  else
    errWrap errMsg ErrorCode.codeInvalidToken "failed to parse token"

/-- The keyfunc closure of `JWTManager.ParseToken`: reject a header
algorithm different from the configured one, otherwise hand back the
verification key. -/
def JWTManager.keyfunc (m : JWTManager) (tok : Token) : Except AppError SigningKey :=
  if tok.alg ≠ m.config.algorithm then
    Except.error ((errUnauthorized "invalid token algorithm").withDetails
      ("expected " ++ m.config.algorithm ++ ", got " ++ tok.alg))
  else Except.ok m.getVerificationKey

/-- Model of `JWTManager.ParseToken` on a structurally well-formed token
(the empty-string guard and the wire decode precede this in Go): library
parse, then the issuer check, then the audience membership check. -/
def JWTManager.ParseToken (S : SignModel) (m : JWTManager) (now : Int)
    (tok : Token) : Except AppError Claims :=
  match parseWithClaims S now m.keyfunc tok with
  | Except.error e => Except.error (handleParseError e.errMsg)
  | Except.ok claims =>
    if claims.issuer ≠ m.config.issuer then
      Except.error (errUnauthorized "invalid token issuer")
    else if claims.audience.any (fun aud => aud = m.config.audience) then
      Except.ok claims
    else
      Except.error (errUnauthorized "invalid token audience")

/-- Model of `JWTManager.RefreshToken`: fully parse the presented token,
then mint a new access token from a fresh `Claims` carrying only the
identity fields. -/
def JWTManager.RefreshToken (S : SignModel) (m : JWTManager) (now : Int)
    (tok : Token) : Except AppError Token :=
  match m.ParseToken S now tok with
  | Except.error e => Except.error e
  | Except.ok claims =>
    Except.ok (m.GenerateToken S now
      { issuer := ""
        subject := ""
        audience := []
        expiresAt := none
        notBefore := none
        issuedAt := none
        userID := claims.userID
        username := claims.username
        email := claims.email
        roles := claims.roles
        custom := claims.custom }
      TokenType.access)

/-! ### Auxiliary predicates and concrete instances

`exceptIsErr` observes whether a call returned an error.  The `...Toy`
values are concrete instantiations of the abstract external collaborators,
used to exhibit witnesses and counterexamples; each satisfies the
interface assumptions the theorems place on the real collaborator. -/

/-- Whether a modelled Go call returned a non-nil error. -/
def exceptIsErr {A : Type} : Except AppError A → Bool
  | Except.error _ => true
  | Except.ok _ => false

/-- A concrete AEAD with the AES-GCM nonce size whose seal operation is
the identity on the plaintext; it satisfies the seal/open round-trip
assumption. -/
def gcmToy : AEADModel :=
  { nonceSize := 12
    sealOp := fun _ _ p => p
    opn := fun _ _ c => some c }

/-- A 16-byte key (a valid AES-128 key length). -/
def keyToy : List Byte := List.replicate 16 0

/-- A 12-byte nonce, matching `gcmToy.nonceSize`. -/
def nonceToy : List Byte := List.replicate 12 0

/-- An encryptor holding `keyToy`. -/
def encToy : Encryptor := { config := { key := keyToy } }

/-- A concrete digest function with the declared output length, injective
enough to distinguish the witnesses' passwords. -/
def idKeyToy : IDKeyFn := fun pw salt _ _ _ l =>
  (List.range l).map (fun i =>
    ⟨(pw.foldl (fun a b => a + b.val) 0 + salt.length + i) % 256, by omega⟩)

/-- The hash text of the concrete bcrypt instance: the bcrypt structural
prefix followed by one alphabet character per password byte. -/
def bcToyGen (pw : List Byte) : String :=
  String.mk ('$' :: '2' :: 'a' :: '$' ::
    pw.map (fun b => b64Char ⟨b.val % 64, by omega⟩))

/-- A concrete bcrypt library: generation ignores salt and cost and
produces `bcToyGen`; comparison recomputes it. -/
def bcToy : BcryptModel :=
  { generate := fun _ _ pw => Except.ok (bcToyGen pw)
    compare := fun hash pw =>
      if hash = bcToyGen pw then BcryptOutcome.matched
      else BcryptOutcome.mismatched }

/-- A hasher with small Argon2 parameters (for cheap evaluation). -/
def hasherSmall : Hasher :=
  { config :=
    { bcryptCost := 10
      argon2Time := 1
      argon2Memory := 8
      argon2Threads := 1
      argon2KeyLen := 4
      argon2SaltLen := 0 } }

/-- A hasher whose Argon2 output length is zero. -/
def hasherZero : Hasher :=
  { config :=
    { bcryptCost := 10
      argon2Time := 1
      argon2Memory := 8
      argon2Threads := 1
      argon2KeyLen := 0
      argon2SaltLen := 0 } }

/-- A concrete bcrypt library whose comparison reports a parse failure
(as the real library does on structurally invalid bcrypt hashes). -/
def bcFail : BcryptModel :=
  { generate := fun _ _ _ => Except.error "bcrypt failure"
    compare := fun _ _ =>
      BcryptOutcome.failed "hashedSecret too short to be a bcrypted password" }

/-- A concrete signing model that accepts every signature (the worst case
for the algorithm-confusion claim). -/
def signToy : SignModel :=
  { sign := fun _ _ _ => 0
    verify := fun _ _ _ _ => true }

/-- A concrete HMAC manager configuration. -/
def cfgToy : JWTConfig :=
  { secret := "s"
    privateKey := none
    publicKey := none
    algorithm := "HS256"
    issuer := "svc"
    audience := "api"
    accessTokenExpiry := 900
    refreshTokenExpiry := 604800 }

/-- The manager holding `cfgToy`. -/
def mgrToy : JWTManager := { config := cfgToy }

/-- The configuration `cfgToy` with a zero access-token TTL. -/
def cfgZero : JWTConfig :=
  { secret := "s"
    privateKey := none
    publicKey := none
    algorithm := "HS256"
    issuer := "svc"
    audience := "api"
    accessTokenExpiry := 0
    refreshTokenExpiry := 604800 }

/-- The manager holding `cfgZero`. -/
def mgrZero : JWTManager := { config := cfgZero }

/-- A claims value with nonempty identity fields and no stamps. -/
def claimsToy : Claims :=
  { issuer := ""
    subject := ""
    audience := []
    expiresAt := none
    notBefore := none
    issuedAt := none
    userID := "user123"
    username := "john"
    email := "j@x"
    roles := ["admin"]
    custom := [("k", "v")] }

/-! ### Helper lemmas: base64 -/

theorem toList_mk (cs : List Char) : (String.mk cs).toList = cs := rfl

theorem toList_append (a b : String) : (a ++ b).toList = a.toList ++ b.toList := by
  cases a
  cases b
  rfl

theorem mk_eq_empty_iff (cs : List Char) : String.mk cs = "" ↔ cs = [] := by
  constructor
  · intro h
    exact congrArg String.toList h
  · intro h
    rw [h]

theorem b64Idx_b64Char : ∀ i : Fin 64, b64Idx (b64Char i) = some i := by decide

theorem b64Char_ne_pad : ∀ i : Fin 64, b64Char i ≠ '=' := by decide

theorem b64Char_ne_dollar : ∀ i : Fin 64, b64Char i ≠ '$' := by decide

theorem dByte1_sx (a b : Byte) : dByte1 (sx1 a) (sx2 a b) = a := by
  apply Fin.ext
  simp only [dByte1, sx1, sx2]
  have := a.isLt
  have := b.isLt
  omega

theorem dByte2_sx (a b c : Byte) : dByte2 (sx2 a b) (sx3 b c) = b := by
  apply Fin.ext
  simp only [dByte2, sx2, sx3]
  have := a.isLt
  have := b.isLt
  have := c.isLt
  omega

theorem dByte3_sx (b c : Byte) : dByte3 (sx3 b c) (sx4 c) = c := by
  apply Fin.ext
  simp only [dByte3, sx3, sx4]
  have := b.isLt
  have := c.isLt
  omega

theorem b64DecQuads_enc : ∀ l : List Byte, b64DecQuads (b64EncTriples l) = some l := by
  intro l
  induction l using b64EncTriples.induct with
  | case1 =>
    rfl
  | case2 a =>
    simp only [b64EncTriples, b64DecQuads, b64Idx_b64Char, dByte1_sx]
  | case3 a b =>
    simp only [b64EncTriples, b64DecQuads, b64Idx_b64Char, dByte1_sx, dByte2_sx]
  | case4 a b c rest ih =>
    simp only [b64EncTriples, b64DecQuads, b64Idx_b64Char, ih, dByte1_sx,
      dByte2_sx, dByte3_sx]

theorem b64EncTriples_mem : ∀ l : List Byte, ∀ c ∈ b64EncTriples l,
    c ≠ '=' ∧ c ≠ '$' := by
  intro l
  induction l using b64EncTriples.induct with
  | case1 =>
    intro c hc
    simp [b64EncTriples] at hc
  | case2 a =>
    intro c hc
    simp only [b64EncTriples, List.mem_cons, List.mem_singleton,
      List.not_mem_nil, or_false] at hc
    rcases hc with h | h <;>
      exact h ▸ ⟨b64Char_ne_pad _, b64Char_ne_dollar _⟩
  | case3 a b =>
    intro c hc
    simp only [b64EncTriples, List.mem_cons, List.not_mem_nil, or_false] at hc
    rcases hc with h | h | h <;>
      exact h ▸ ⟨b64Char_ne_pad _, b64Char_ne_dollar _⟩
  | case4 a b c rest ih =>
    intro x hx
    simp only [b64EncTriples, List.mem_cons] at hx
    rcases hx with h | h | h | h | h
    · exact h ▸ ⟨b64Char_ne_pad _, b64Char_ne_dollar _⟩
    · exact h ▸ ⟨b64Char_ne_pad _, b64Char_ne_dollar _⟩
    · exact h ▸ ⟨b64Char_ne_pad _, b64Char_ne_dollar _⟩
    · exact h ▸ ⟨b64Char_ne_pad _, b64Char_ne_dollar _⟩
    · exact ih x h

theorem b64EncTriples_length : ∀ l : List Byte,
    (b64EncTriples l).length = l.length / 3 * 4 +
      (if l.length % 3 = 0 then 0 else if l.length % 3 = 1 then 2 else 3) := by
  intro l
  induction l using b64EncTriples.induct with
  | case1 => rfl
  | case2 a => simp [b64EncTriples]
  | case3 a b => simp [b64EncTriples]
  | case4 a b c rest ih =>
    simp only [b64EncTriples, List.length_cons, ih]
    split_ifs <;> omega

theorem leadEqCount_of_not_mem (m : List Char) (h : '=' ∉ m) : leadEqCount m = 0 := by
  cases m with
  | nil => rfl
  | cons c r =>
    have : c ≠ '=' := fun hc => h (hc ▸ List.mem_cons_self c r)
    simp [leadEqCount, this]

theorem b64Raw_roundtrip (l : List Byte) : b64DecodeRaw (b64EncodeRaw l) = some l := by
  unfold b64DecodeRaw b64EncodeRaw
  rw [toList_mk]
  exact b64DecQuads_enc l

theorem b64DecodeStd_eval (cs : List Char) (h4 : cs.length % 4 = 0)
    (hpad : leadEqCount cs.reverse ≤ 2)
    (hmem : '=' ∉ cs.take (cs.length - leadEqCount cs.reverse)) :
    b64DecodeStd (String.mk cs) =
      b64DecQuads (cs.take (cs.length - leadEqCount cs.reverse)) := by
  unfold b64DecodeStd
  rw [toList_mk]
  show (if cs.length % 4 ≠ 0 then none
    else if 3 ≤ leadEqCount cs.reverse then none
    else if '=' ∈ cs.take (cs.length - leadEqCount cs.reverse) then none
    else b64DecQuads (cs.take (cs.length - leadEqCount cs.reverse))) = _
  rw [if_neg (by omega), if_neg (by omega), if_neg hmem]

theorem b64Std_roundtrip (l : List Byte) : b64DecodeStd (b64EncodeStd l) = some l := by
  have hlen := b64EncTriples_length l
  have hnm : '=' ∉ b64EncTriples l := fun h => (b64EncTriples_mem l '=' h).1 rfl
  have hnr : '=' ∉ (b64EncTriples l).reverse := by
    intro h
    exact hnm (List.mem_reverse.mp h)
  have hlead : leadEqCount (b64EncTriples l).reverse = 0 :=
    leadEqCount_of_not_mem _ hnr
  have h3 : l.length % 3 = 0 ∨ l.length % 3 = 1 ∨ l.length % 3 = 2 := by omega
  unfold b64EncodeStd
  rcases h3 with h3 | h3 | h3
  · rw [h3] at hlen
    norm_num at hlen
    rw [if_neg (by omega), if_neg (by omega), List.append_nil]
    rw [b64DecodeStd_eval (b64EncTriples l) (by omega) (by omega)
      (by rw [hlead, Nat.sub_zero, List.take_length]; exact hnm)]
    rw [hlead, Nat.sub_zero, List.take_length]
    exact b64DecQuads_enc l
  · rw [h3] at hlen
    norm_num at hlen
    rw [if_pos h3]
    have hrev : (b64EncTriples l ++ ['=', '=']).reverse =
        '=' :: '=' :: (b64EncTriples l).reverse := by
      simp
    have hlead2 : leadEqCount (b64EncTriples l ++ ['=', '=']).reverse = 2 := by
      rw [hrev]
      simp [leadEqCount, hlead]
    have hlen2 : (b64EncTriples l ++ ['=', '=']).length = (b64EncTriples l).length + 2 := by
      simp
    have htake : (b64EncTriples l ++ ['=', '=']).take
        ((b64EncTriples l ++ ['=', '=']).length - 2) = b64EncTriples l := by
      rw [hlen2, Nat.add_sub_cancel, List.take_left]
    rw [b64DecodeStd_eval _ (by omega) (by omega) (by rw [hlead2, htake]; exact hnm)]
    rw [hlead2, htake]
    exact b64DecQuads_enc l
  · rw [h3] at hlen
    norm_num at hlen
    rw [if_neg (by omega), if_pos h3]
    have hrev : (b64EncTriples l ++ ['=']).reverse =
        '=' :: (b64EncTriples l).reverse := by
      simp
    have hlead2 : leadEqCount (b64EncTriples l ++ ['=']).reverse = 1 := by
      rw [hrev]
      simp [leadEqCount, hlead]
    have hlen2 : (b64EncTriples l ++ ['=']).length = (b64EncTriples l).length + 1 := by
      simp
    have htake : (b64EncTriples l ++ ['=']).take
        ((b64EncTriples l ++ ['=']).length - 1) = b64EncTriples l := by
      rw [hlen2, Nat.add_sub_cancel, List.take_left]
    rw [b64DecodeStd_eval _ (by omega) (by omega) (by rw [hlead2, htake]; exact hnm)]
    rw [hlead2, htake]
    exact b64DecQuads_enc l

theorem b64EncodeStd_ne_empty (l : List Byte) (h : l ≠ []) : b64EncodeStd l ≠ "" := by
  unfold b64EncodeStd
  rw [Ne, mk_eq_empty_iff]
  intro habs
  have h0 : 0 < l.length := List.length_pos.mpr h
  have hlen := b64EncTriples_length l
  have henc : (b64EncTriples l).length = 0 := by
    have := congrArg List.length habs
    simp only [List.length_append, List.length_nil] at this
    omega
  have h3 : l.length % 3 = 0 ∨ l.length % 3 = 1 ∨ l.length % 3 = 2 := by omega
  rcases h3 with h3 | h3 | h3 <;> rw [h3] at hlen <;> norm_num at hlen <;> omega

/-! ### Helper lemmas: decimal formatting and scanning -/

theorem digitChar_facts : ∀ d : Fin 10, (Nat.digitChar d.val).isDigit = true ∧
    (Nat.digitChar d.val).toNat - 48 = d.val ∧ Nat.digitChar d.val ≠ '$' := by
  decide

theorem natToDecAux_ne_nil : ∀ f n, n < f → natToDecAux f n ≠ [] := by
  intro f
  induction f with
  | zero => intro n h; omega
  | succ f ih =>
    intro n _
    unfold natToDecAux
    split
    · simp
    · simp

theorem natToDecChars_ne_nil (n : Nat) : natToDecChars n ≠ [] :=
  natToDecAux_ne_nil (n + 1) n (by omega)

theorem natToDecAux_digits : ∀ f n, n < f →
    ∀ c ∈ natToDecAux f n, c.isDigit = true := by
  intro f
  induction f with
  | zero => intro n h; omega
  | succ f ih =>
    intro n hn c hc
    unfold natToDecAux at hc
    by_cases h : n < 10
    · rw [if_pos h] at hc
      simp only [List.mem_singleton] at hc
      exact hc ▸ (digitChar_facts ⟨n, h⟩).1
    · rw [if_neg h] at hc
      rcases List.mem_append.mp hc with h1 | h1
      · exact ih (n / 10) (by omega) c h1
      · simp only [List.mem_singleton] at h1
        exact h1 ▸ (digitChar_facts ⟨n % 10, by omega⟩).1

theorem natToDecChars_digits (n : Nat) :
    ∀ c ∈ natToDecChars n, c.isDigit = true :=
  natToDecAux_digits (n + 1) n (by omega)

theorem digit_ne_dollar (c : Char) (h : c.isDigit = true) : c ≠ '$' := by
  intro habs
  rw [habs] at h
  exact absurd h (by decide)

theorem digitsVal_append_one (a : List Char) (c : Char) :
    digitsVal (a ++ [c]) = digitsVal a * 10 + (c.toNat - 48) := by
  simp [digitsVal, List.foldl_append]

theorem digitsVal_natToDecAux : ∀ f n, n < f →
    digitsVal (natToDecAux f n) = n := by
  intro f
  induction f with
  | zero => intro n h; omega
  | succ f ih =>
    intro n hn
    unfold natToDecAux
    by_cases h : n < 10
    · rw [if_pos h]
      have hd : (Nat.digitChar n).toNat - 48 = n := (digitChar_facts ⟨n, h⟩).2.1
      simp [digitsVal]
      omega
    · rw [if_neg h]
      rw [digitsVal_append_one, ih (n / 10) (by omega)]
      have hd : (Nat.digitChar (n % 10)).toNat - 48 = n % 10 :=
        (digitChar_facts ⟨n % 10, by omega⟩).2.1
      omega

theorem digitsVal_natToDecChars (n : Nat) : digitsVal (natToDecChars n) = n :=
  digitsVal_natToDecAux (n + 1) n (by omega)

theorem takeWhile_append_of_all (p : Char → Bool) (a rest : List Char)
    (ha : ∀ c ∈ a, p c = true) :
    (a ++ rest).takeWhile p = a ++ rest.takeWhile p := by
  induction a with
  | nil => simp
  | cons c r ih =>
    have hc : p c = true := ha c (List.mem_cons_self c r)
    simp only [List.cons_append, List.takeWhile_cons, hc, if_true]
    rw [ih (fun x hx => ha x (List.mem_cons_of_mem c hx))]

theorem dropWhile_append_of_all (p : Char → Bool) (a rest : List Char)
    (ha : ∀ c ∈ a, p c = true) :
    (a ++ rest).dropWhile p = rest.dropWhile p := by
  induction a with
  | nil => simp
  | cons c r ih =>
    have hc : p c = true := ha c (List.mem_cons_self c r)
    simp only [List.cons_append, List.dropWhile_cons, hc, if_true]
    exact ih (fun x hx => ha x (List.mem_cons_of_mem c hx))

theorem takeWhile_nil_of_head (p : Char → Bool) (rest : List Char)
    (h : ∀ c r, rest = c :: r → p c = false) :
    rest.takeWhile p = [] ∧ rest.dropWhile p = rest := by
  cases rest with
  | nil => simp
  | cons c r =>
    have hc := h c r rfl
    simp [List.takeWhile_cons, List.dropWhile_cons, hc]

theorem scanDigits_dec (n : Nat) (rest : List Char)
    (h : ∀ c r, rest = c :: r → c.isDigit = false) :
    scanDigits (natToDecChars n ++ rest) = some (n, rest) := by
  have hall := natToDecChars_digits n
  have hrest := takeWhile_nil_of_head (fun c => c.isDigit) rest h
  unfold scanDigits
  rw [takeWhile_append_of_all _ _ _ hall, dropWhile_append_of_all _ _ _ hall,
    hrest.1, hrest.2, List.append_nil]
  rw [if_neg (by simp [List.isEmpty_iff, natToDecChars_ne_nil n])]
  rw [digitsVal_natToDecChars]

/-! ### Helper lemmas: splitting and parsing the PHC hash string -/

theorem splitGo_append_nodollar (seg : List Char) (h : '$' ∉ seg) :
    ∀ cs cur parts, splitGo (seg ++ cs) cur parts = splitGo cs (cur ++ seg) parts := by
  induction seg with
  | nil =>
    intro cs cur parts
    simp
  | cons c r ih =>
    intro cs cur parts
    have hc : c ≠ '$' := fun habs => h (habs ▸ List.mem_cons_self c r)
    have hr : '$' ∉ r := fun habs => h (List.mem_cons_of_mem c habs)
    simp only [List.cons_append, splitGo, if_neg hc]
    show splitGo (r ++ cs) (cur ++ [c]) parts = splitGo cs (cur ++ c :: r) parts
    rw [ih hr cs (cur ++ [c]) parts]
    congr 1
    simp

theorem splitGo_dollar (cs : List Char) (cur : List Char) (parts : List (List Char)) :
    splitGo ('$' :: cs) cur parts = splitGo cs [] (parts ++ [cur]) := by
  simp [splitGo]

theorem splitGo_final (seg : List Char) (h : '$' ∉ seg) (hne : seg ≠ [])
    (cur : List Char) (parts : List (List Char)) :
    splitGo seg cur parts = parts ++ [cur ++ seg] := by
  have := splitGo_append_nodollar seg h [] cur parts
  rw [List.append_nil] at this
  rw [this]
  unfold splitGo
  rw [if_neg]
  simp [List.isEmpty_iff, hne]

/-- The character-level layout of a generated PHC hash string. -/
theorem hashArgon2_toList (idKey : IDKeyFn) (h : Hasher) (salt : List Byte)
    (password : List Byte) :
    (h.hashArgon2 idKey salt password).toList =
      '$' :: ("argon2id".toList ++ '$' ::
        (('v' :: '=' :: natToDecChars 19) ++ '$' ::
          (('m' :: '=' :: natToDecChars h.config.argon2Memory ++
            ',' :: 't' :: '=' :: natToDecChars h.config.argon2Time ++
            ',' :: 'p' :: '=' :: natToDecChars h.config.argon2Threads) ++ '$' ::
            (b64EncTriples salt ++ '$' ::
              b64EncTriples (idKey password salt h.config.argon2Time
                h.config.argon2Memory h.config.argon2Threads
                h.config.argon2KeyLen))))) := by
  unfold Hasher.hashArgon2
  simp only [toList_append, natToDec, toList_mk, b64EncodeRaw]
  have h1 : "$argon2id$v=".toList =
    ['$', 'a', 'r', 'g', 'o', 'n', '2', 'i', 'd', '$', 'v', '='] := rfl
  have h2 : "$m=".toList = ['$', 'm', '='] := rfl
  have h3 : ",t=".toList = [',', 't', '='] := rfl
  have h4 : ",p=".toList = [',', 'p', '='] := rfl
  have h5 : "$".toList = ['$'] := rfl
  have h6 : "argon2id".toList = ['a', 'r', 'g', 'o', 'n', '2', 'i', 'd'] := rfl
  rw [h1, h2, h3, h4, h5, h6]
  simp [List.append_assoc]

theorem splitArgon2Hash_gen (idKey : IDKeyFn) (h : Hasher) (salt : List Byte)
    (password : List Byte)
    (hKL : idKey password salt h.config.argon2Time h.config.argon2Memory
      h.config.argon2Threads h.config.argon2KeyLen ≠ []) :
    splitArgon2Hash (h.hashArgon2 idKey salt password) =
      ["", "argon2id",
        String.mk ('v' :: '=' :: natToDecChars 19),
        String.mk ('m' :: '=' :: natToDecChars h.config.argon2Memory ++
          ',' :: 't' :: '=' :: natToDecChars h.config.argon2Time ++
          ',' :: 'p' :: '=' :: natToDecChars h.config.argon2Threads),
        String.mk (b64EncTriples salt),
        String.mk (b64EncTriples (idKey password salt h.config.argon2Time
          h.config.argon2Memory h.config.argon2Threads h.config.argon2KeyLen))] := by
  unfold splitArgon2Hash
  rw [hashArgon2_toList]
  have hA : '$' ∉ "argon2id".toList := by decide
  have hV : '$' ∉ ('v' :: '=' :: natToDecChars 19) := by
    intro habs
    rcases habs with _ | ⟨_, habs⟩
    rcases habs with _ | ⟨_, habs⟩
    exact digit_ne_dollar '$' (natToDecChars_digits 19 '$' habs) rfl
  have hP : '$' ∉ ('m' :: '=' :: natToDecChars h.config.argon2Memory ++
      ',' :: 't' :: '=' :: natToDecChars h.config.argon2Time ++
      ',' :: 'p' :: '=' :: natToDecChars h.config.argon2Threads) := by
    intro habs
    simp only [List.mem_cons, List.mem_append] at habs
    rcases habs with ((h | h | h) | h | h | h | h) | h | h | h | h
    · exact absurd h (by decide)
    · exact absurd h (by decide)
    · exact digit_ne_dollar '$' (natToDecChars_digits _ '$' h) rfl
    · exact absurd h (by decide)
    · exact absurd h (by decide)
    · exact absurd h (by decide)
    · exact digit_ne_dollar '$' (natToDecChars_digits _ '$' h) rfl
    · exact absurd h (by decide)
    · exact absurd h (by decide)
    · exact absurd h (by decide)
    · exact digit_ne_dollar '$' (natToDecChars_digits _ '$' h) rfl
  have hS : '$' ∉ b64EncTriples salt := fun habs =>
    (b64EncTriples_mem salt '$' habs).2 rfl
  have hH : '$' ∉ b64EncTriples (idKey password salt h.config.argon2Time
      h.config.argon2Memory h.config.argon2Threads h.config.argon2KeyLen) :=
    fun habs => (b64EncTriples_mem _ '$' habs).2 rfl
  have hHne : b64EncTriples (idKey password salt h.config.argon2Time
      h.config.argon2Memory h.config.argon2Threads h.config.argon2KeyLen) ≠ [] := by
    intro habs
    have := b64EncTriples_length (idKey password salt h.config.argon2Time
      h.config.argon2Memory h.config.argon2Threads h.config.argon2KeyLen)
    rw [habs] at this
    have hpos : 0 < (idKey password salt h.config.argon2Time
        h.config.argon2Memory h.config.argon2Threads
        h.config.argon2KeyLen).length := List.length_pos.mpr hKL
    simp only [List.length_nil] at this
    have h3 : (idKey password salt h.config.argon2Time h.config.argon2Memory
        h.config.argon2Threads h.config.argon2KeyLen).length % 3 = 0 ∨
        (idKey password salt h.config.argon2Time h.config.argon2Memory
        h.config.argon2Threads h.config.argon2KeyLen).length % 3 = 1 ∨
        (idKey password salt h.config.argon2Time h.config.argon2Memory
        h.config.argon2Threads h.config.argon2KeyLen).length % 3 = 2 := by omega
    rcases h3 with h3 | h3 | h3 <;> (rw [h3] at this; norm_num at this; try omega)
  rw [splitGo_dollar, splitGo_append_nodollar _ hA, splitGo_dollar,
    splitGo_append_nodollar _ hV, splitGo_dollar,
    splitGo_append_nodollar _ hP, splitGo_dollar,
    splitGo_append_nodollar _ hS, splitGo_dollar,
    splitGo_final _ hH hHne]
  simp

theorem scanLit_cons_self (c : Char) (r : List Char) : scanLit c (c :: r) = some r := by
  simp [scanLit]

theorem scanVersion_gen : scanVersion (String.mk ('v' :: '=' :: natToDecChars 19)) =
    some 19 := by
  decide

theorem scanDigits_dec_comma (n : Nat) (x : List Char) :
    scanDigits (natToDecChars n ++ ',' :: x) = some (n, ',' :: x) := by
  apply scanDigits_dec
  intro c r hc
  cases hc
  decide

theorem scanDigits_dec_nil (n : Nat) :
    scanDigits (natToDecChars n) = some (n, []) := by
  have := scanDigits_dec n [] (by intro c r hc; cases hc)
  rw [List.append_nil] at this
  exact this

theorem scanParams_gen (M T Th : Nat) (hM : M < 2 ^ 32) (hT : T < 2 ^ 32)
    (hTh : Th < 2 ^ 8) :
    scanParams (String.mk ('m' :: '=' :: (natToDecChars M ++
      ',' :: 't' :: '=' :: (natToDecChars T ++
      ',' :: 'p' :: '=' :: natToDecChars Th)))) = some (M, T, Th) := by
  unfold scanParams
  rw [toList_mk]
  simp only [scanLit_cons_self, scanDigits_dec_comma, scanDigits_dec_nil]
  have hc : (decide (M < 2 ^ 32) && decide (T < 2 ^ 32) && decide (Th < 2 ^ 8)) = true := by
    simp only [Bool.and_eq_true, decide_eq_true_eq]
    exact ⟨⟨hM, hT⟩, hTh⟩
  rw [if_pos hc]

theorem b64DecodeRaw_mk_enc (l : List Byte) :
    b64DecodeRaw (String.mk (b64EncTriples l)) = some l :=
  b64Raw_roundtrip l

/-- Evaluation of `compareArgon2` on a hash produced by `hashArgon2`: the
stored parameters are recovered exactly and the stored digest is compared
against a digest recomputed from the candidate password. -/
theorem compareArgon2_hashArgon2 (idKey : IDKeyFn) (h : Hasher)
    (salt pw q : List Byte)
    (hlen1 : (idKey pw salt h.config.argon2Time h.config.argon2Memory
      h.config.argon2Threads h.config.argon2KeyLen).length = h.config.argon2KeyLen)
    (hKL : 0 < h.config.argon2KeyLen)
    (hM : h.config.argon2Memory < 2 ^ 32) (hT : h.config.argon2Time < 2 ^ 32)
    (hTh : h.config.argon2Threads < 2 ^ 8) :
    Hasher.compareArgon2 idKey q (h.hashArgon2 idKey salt pw) =
      (if idKey pw salt h.config.argon2Time h.config.argon2Memory
          h.config.argon2Threads h.config.argon2KeyLen =
         idKey q salt h.config.argon2Time h.config.argon2Memory
          h.config.argon2Threads h.config.argon2KeyLen
       then Except.ok true else Except.ok false) := by
  have hne : idKey pw salt h.config.argon2Time h.config.argon2Memory
      h.config.argon2Threads h.config.argon2KeyLen ≠ [] := by
    intro habs
    rw [habs] at hlen1
    simp at hlen1
    omega
  unfold Hasher.compareArgon2
  rw [splitArgon2Hash_gen idKey h salt pw hne]
  norm_num [List.getD]
  rw [scanVersion_gen, scanParams_gen _ _ _ hM hT hTh,
    b64DecodeRaw_mk_enc, b64DecodeRaw_mk_enc]
  simp only [hlen1]

/-! ### Claim C1: encrypt/decrypt round trip -/

/-- Claim C1, amended: for every valid AES key, every nonce of the mode's
nonce length, and every nonempty plaintext, decrypting the result of
encrypting returns the plaintext again, in both the byte and the
base64-string variants (the empty plaintext is rejected by Encrypt, so the
round trip is amended to nonempty plaintexts).  The seal/open round-trip
hypothesis is the correctness property of the external AES-GCM
primitive. -/
theorem C1_roundtrip (G : AEADModel) (e : Encryptor) (nonce p : List Byte)
    (hkey : validKeyLen e.config.key = true)
    (hn : nonce.length = G.nonceSize)
    (hn0 : 0 < G.nonceSize)
    (hp : p ≠ [])
    (hrt : G.opn e.config.key nonce (G.sealOp e.config.key nonce p) = some p) :
    Encryptor.EncryptBytes G e nonce p =
      Except.ok (nonce ++ G.sealOp e.config.key nonce p) ∧
    Encryptor.DecryptBytes G e (nonce ++ G.sealOp e.config.key nonce p) =
      Except.ok p ∧
    Encryptor.Encrypt G e nonce p =
      Except.ok (b64EncodeStd (nonce ++ G.sealOp e.config.key nonce p)) ∧
    Encryptor.Decrypt G e (b64EncodeStd (nonce ++ G.sealOp e.config.key nonce p)) =
      Except.ok p := by
  have hpe : p.isEmpty = false := by
    cases p with
    | nil => exact absurd rfl hp
    | cons a l => rfl
  have hnne : nonce ≠ [] := by
    intro habs
    rw [habs] at hn
    simp at hn
    omega
  have hctne : nonce ++ G.sealOp e.config.key nonce p ≠ [] := by
    intro habs
    exact hnne (List.append_eq_nil.mp habs).1
  have hcte : (nonce ++ G.sealOp e.config.key nonce p).isEmpty = false := by
    cases hc : nonce ++ G.sealOp e.config.key nonce p with
    | nil => exact absurd hc hctne
    | cons a l => rfl
  have hge : ¬ (nonce ++ G.sealOp e.config.key nonce p).length < G.nonceSize := by
    rw [List.length_append, hn]
    omega
  have htake : (nonce ++ G.sealOp e.config.key nonce p).take G.nonceSize = nonce := by
    rw [← hn, List.take_left]
  have hdrop : (nonce ++ G.sealOp e.config.key nonce p).drop G.nonceSize =
      G.sealOp e.config.key nonce p := by
    rw [← hn, List.drop_left]
  refine ⟨?_, ?_, ?_, ?_⟩
  · simp [Encryptor.EncryptBytes, hpe, hkey]
  · simp [Encryptor.DecryptBytes, hcte, hkey, hge, htake, hdrop, hrt]
    omega
  · simp [Encryptor.Encrypt, hpe, hkey]
  · simp [Encryptor.Decrypt, b64EncodeStd_ne_empty _ hctne, b64Std_roundtrip,
      hkey, hge, htake, hdrop, hrt]
    omega

/-- Claim C1, counterexample to the unrestricted statement: at the empty
plaintext both Encrypt variants return an input-validation error, so no
round trip exists there. -/
theorem C1_counterexample :
    Encryptor.Encrypt gcmToy encToy nonceToy [] =
      Except.error (errBadRequest "plaintext cannot be empty") ∧
    Encryptor.EncryptBytes gcmToy encToy nonceToy [] =
      Except.error (errBadRequest "plaintext cannot be empty") :=
  ⟨rfl, rfl⟩

/-- Claim C1, witness: the amended round trip at a concrete key, nonce
and plaintext. -/
theorem C1_witness :
    Encryptor.EncryptBytes gcmToy encToy nonceToy [5] =
      Except.ok (nonceToy ++ gcmToy.sealOp encToy.config.key nonceToy [5]) ∧
    Encryptor.DecryptBytes gcmToy encToy
      (nonceToy ++ gcmToy.sealOp encToy.config.key nonceToy [5]) =
      Except.ok [5] ∧
    Encryptor.Encrypt gcmToy encToy nonceToy [5] =
      Except.ok (b64EncodeStd (nonceToy ++ gcmToy.sealOp encToy.config.key nonceToy [5])) ∧
    Encryptor.Decrypt gcmToy encToy
      (b64EncodeStd (nonceToy ++ gcmToy.sealOp encToy.config.key nonceToy [5])) =
      Except.ok [5] :=
  C1_roundtrip gcmToy encToy nonceToy [5] (by decide) (by decide) (by decide)
    (by decide) rfl

/-! ### Claim C7: short envelopes -/

/-- Claim C7, amended: with a valid key, every envelope shorter than the
mode's nonce length is rejected with an error — the dedicated too-short
error when the envelope is nonempty (the empty envelope is caught by the
empty-input guard instead) — and never causes a panic: both Decrypt
variants are total functions.  The string variant is stated for any
encoded form that decodes to a short envelope. -/
theorem C7_short_envelope (G : AEADModel) (e : Encryptor) (ct : List Byte)
    (s : String) (hkey : validKeyLen e.config.key = true) :
    (ct.length < G.nonceSize → exceptIsErr (Encryptor.DecryptBytes G e ct) = true) ∧
    (ct ≠ [] → ct.length < G.nonceSize →
      Encryptor.DecryptBytes G e ct =
        Except.error (errBadRequest "ciphertext too short")) ∧
    (s ≠ "" → b64DecodeStd s = some ct → ct.length < G.nonceSize →
      Encryptor.Decrypt G e s =
        Except.error (errBadRequest "ciphertext too short")) := by
  have hbytes : ct ≠ [] → ct.length < G.nonceSize →
      Encryptor.DecryptBytes G e ct =
        Except.error (errBadRequest "ciphertext too short") := by
    intro hne hlt
    have hcte : ct.isEmpty = false := by
      cases ct with
      | nil => exact absurd rfl hne
      | cons a l => rfl
    simp [Encryptor.DecryptBytes, hcte, hkey, hlt]
  refine ⟨?_, hbytes, ?_⟩
  · intro hlt
    cases hct : ct with
    | nil =>
      simp [Encryptor.DecryptBytes, exceptIsErr]
    | cons a l =>
      rw [← hct]
      rw [hbytes (by rw [hct]; simp) hlt]
      rfl
  · intro hse hdec hlt
    simp [Encryptor.Decrypt, hse, hdec, hkey, hlt]

/-- Claim C7, counterexample to the unrestricted statement: the empty
envelope is shorter than the nonce size, yet Decrypt returns the
empty-input error, which is distinct from the too-short error. -/
theorem C7_counterexample :
    ([] : List Byte).length < gcmToy.nonceSize ∧
    Encryptor.DecryptBytes gcmToy encToy [] =
      Except.error (errBadRequest "ciphertext cannot be empty") ∧
    errBadRequest "ciphertext cannot be empty" ≠
      errBadRequest "ciphertext too short" :=
  ⟨by decide, rfl, by decide⟩

/-- Claim C7, witness: the amended statement at a concrete valid key, a
concrete nonempty 2-byte envelope and its base64 form. -/
theorem C7_witness :
    Encryptor.DecryptBytes gcmToy encToy [1, 2] =
      Except.error (errBadRequest "ciphertext too short") ∧
    Encryptor.Decrypt gcmToy encToy (b64EncodeStd [1, 2]) =
      Except.error (errBadRequest "ciphertext too short") := by
  have h := C7_short_envelope gcmToy encToy [1, 2] (b64EncodeStd [1, 2]) (by decide)
  exact ⟨h.2.1 (by decide) (by decide),
    h.2.2 (by decide) (b64Std_roundtrip [1, 2]) (by decide)⟩

/-! ### Claim C9: key generation sizes -/

/-- Claim C9: GenerateAESKey accepts exactly the sizes 16, 24 and 32; for
an accepted size it returns the next `size` random bytes (so exactly that
many), and for every other size argument it returns the configuration
error and no key. -/
theorem C9_generate_key (rand : Nat → Byte) (size : Int) :
    ((size = 16 ∨ size = 24 ∨ size = 32) →
      GenerateAESKey rand size = Except.ok ((List.range size.toNat).map rand) ∧
      ((List.range size.toNat).map rand).length = size.toNat) ∧
    (¬ (size = 16 ∨ size = 24 ∨ size = 32) →
      GenerateAESKey rand size =
        Except.error (errBadRequest "key size must be 16, 24, or 32 bytes")) := by
  constructor
  · intro h
    refine ⟨?_, by simp⟩
    unfold GenerateAESKey
    rw [if_neg]
    intro hc
    rcases h with h | h | h
    · exact hc.1 h
    · exact hc.2.1 h
    · exact hc.2.2 h
  · intro h
    unfold GenerateAESKey
    rw [if_pos]
    exact ⟨fun e => h (Or.inl e), fun e => h (Or.inr (Or.inl e)),
      fun e => h (Or.inr (Or.inr e))⟩

/-- Claim C9, witness: size 32 yields a 32-byte key; size 15 yields the
configuration error. -/
theorem C9_witness :
    (GenerateAESKey (fun _ => (0 : Byte)) 32 =
      Except.ok ((List.range (32 : Int).toNat).map (fun _ => (0 : Byte))) ∧
      ((List.range (32 : Int).toNat).map (fun _ => (0 : Byte))).length =
        (32 : Int).toNat) ∧
    GenerateAESKey (fun _ => (0 : Byte)) 15 =
      Except.error (errBadRequest "key size must be 16, 24, or 32 bytes") :=
  ⟨(C9_generate_key (fun _ => (0 : Byte)) 32).1 (by decide),
    (C9_generate_key (fun _ => (0 : Byte)) 15).2 (by decide)⟩

/-! ### Helper lemmas: ComparePassword dispatch -/

theorem hashArgon2_ne_empty (idKey : IDKeyFn) (h : Hasher) (salt pw : List Byte) :
    h.hashArgon2 idKey salt pw ≠ "" := by
  intro habs
  have hl := congrArg String.toList habs
  rw [hashArgon2_toList] at hl
  simp at hl

theorem bcryptDetect_hashArgon2 (idKey : IDKeyFn) (h : Hasher) (salt pw : List Byte) :
    bcryptDetect (h.hashArgon2 idKey salt pw) = false := by
  unfold bcryptDetect
  rw [hashArgon2_toList]
  rw [show "argon2id".toList = ['a', 'r', 'g', 'o', 'n', '2', 'i', 'd'] from rfl]
  simp [List.getD]

theorem ComparePassword_to_argon2 (idKey : IDKeyFn) (bc : BcryptModel)
    (hv : Hasher) (pw : List Byte) (hash : String)
    (hpw : pw ≠ []) (hne : hash ≠ "") (hdet : bcryptDetect hash = false) :
    Hasher.ComparePassword idKey bc hv pw hash =
      Hasher.compareArgon2 idKey pw hash := by
  have hpe : pw.isEmpty = false := by
    cases pw with
    | nil => exact absurd rfl hpw
    | cons a l => rfl
  simp [Hasher.ComparePassword, hpe, hne, hdet]

/-! ### Claim C2: hash/verify agreement -/

/-- Claim C2, amended: for nonempty passwords and an Argon2 configuration
with positive output length, verification of a generated hash returns true
for the hashing password and false with no error for a different nonempty
password — and the verifying hasher `hv` is arbitrary, so verification
depends only on the parameters stored in the hash, not the verifier's
configuration.  The digest-length and collision-freeness hypotheses are
the interface assumptions on the external `argon2.IDKey`; the bcrypt
hypotheses are the corresponding assumptions on the external bcrypt
library. -/
theorem C2_hash_verify (idKey : IDKeyFn) (bc : BcryptModel) (h hv : Hasher)
    (salt pw pw2 : List Byte) (bhash : String)
    (hpw : pw ≠ []) (hpw2 : pw2 ≠ [])
    (hlen1 : (idKey pw salt h.config.argon2Time h.config.argon2Memory
      h.config.argon2Threads h.config.argon2KeyLen).length = h.config.argon2KeyLen)
    (hKL : 0 < h.config.argon2KeyLen)
    (hM : h.config.argon2Memory < 2 ^ 32) (hT : h.config.argon2Time < 2 ^ 32)
    (hTh : h.config.argon2Threads < 2 ^ 8)
    (hNE : idKey pw2 salt h.config.argon2Time h.config.argon2Memory
        h.config.argon2Threads h.config.argon2KeyLen ≠
      idKey pw salt h.config.argon2Time h.config.argon2Memory
        h.config.argon2Threads h.config.argon2KeyLen)
    (hbgen : bc.generate salt h.config.bcryptCost pw = Except.ok bhash)
    (hbdet : bcryptDetect bhash = true)
    (hbm : bc.compare bhash pw = BcryptOutcome.matched)
    (hbm2 : bc.compare bhash pw2 = BcryptOutcome.mismatched) :
    Hasher.HashPassword idKey bc h salt pw "argon2" =
      Except.ok (h.hashArgon2 idKey salt pw) ∧
    Hasher.ComparePassword idKey bc hv pw (h.hashArgon2 idKey salt pw) =
      Except.ok true ∧
    Hasher.ComparePassword idKey bc hv pw2 (h.hashArgon2 idKey salt pw) =
      Except.ok false ∧
    Hasher.HashPassword idKey bc h salt pw "bcrypt" = Except.ok bhash ∧
    Hasher.ComparePassword idKey bc hv pw bhash = Except.ok true ∧
    Hasher.ComparePassword idKey bc hv pw2 bhash = Except.ok false := by
  have hpe : pw.isEmpty = false := by
    cases pw with
    | nil => exact absurd rfl hpw
    | cons a l => rfl
  have hbne : bhash ≠ "" := by
    intro habs
    rw [habs] at hbdet
    exact absurd hbdet (by decide)
  refine ⟨?_, ?_, ?_, ?_, ?_, ?_⟩
  · simp [Hasher.HashPassword, hpe]
  · rw [ComparePassword_to_argon2 idKey bc hv pw _ hpw
      (hashArgon2_ne_empty idKey h salt pw) (bcryptDetect_hashArgon2 idKey h salt pw)]
    rw [compareArgon2_hashArgon2 idKey h salt pw pw hlen1 hKL hM hT hTh]
    rw [if_pos rfl]
  · rw [ComparePassword_to_argon2 idKey bc hv pw2 _ hpw2
      (hashArgon2_ne_empty idKey h salt pw) (bcryptDetect_hashArgon2 idKey h salt pw)]
    rw [compareArgon2_hashArgon2 idKey h salt pw pw2 hlen1 hKL hM hT hTh]
    rw [if_neg (fun e => hNE e.symm)]
  · simp [Hasher.HashPassword, hpe, Hasher.hashBcrypt, hbgen]
  · have hpe2 : pw.isEmpty = false := hpe
    simp [Hasher.ComparePassword, hpe2, hbne, hbdet, Hasher.compareBcrypt, hbm]
  · have hpe2 : pw2.isEmpty = false := by
      cases pw2 with
      | nil => exact absurd rfl hpw2
      | cons a l => rfl
    simp [Hasher.ComparePassword, hpe2, hbne, hbdet, Hasher.compareBcrypt, hbm2]

/-- Claim C2, counterexample to the unrestricted statement: an empty
candidate password (different from the hashing password) is rejected with
an input-validation error rather than a false match; and a configuration
with zero Argon2 output length produces a hash whose final field is empty,
which verification then rejects as malformed instead of matching. -/
theorem C2_counterexample :
    ([] : List Byte) ≠ [(1 : Byte)] ∧
    Hasher.ComparePassword idKeyToy bcToy hasherSmall []
      (hasherSmall.hashArgon2 idKeyToy [] [1]) =
      Except.error (errBadRequest "password and hash cannot be empty") ∧
    Hasher.HashPassword idKeyToy bcToy hasherZero [] [1] "argon2" =
      Except.ok (hasherZero.hashArgon2 idKeyToy [] [1]) ∧
    Hasher.ComparePassword idKeyToy bcToy hasherZero [1]
      (hasherZero.hashArgon2 idKeyToy [] [1]) =
      Except.error (errBadRequest "invalid argon2 hash format") :=
  ⟨by decide, rfl, rfl, rfl⟩

/-- Claim C2, witness: the amended agreement at concrete passwords, salt
and configurations, with a verifying hasher whose configuration differs
from the hashing one. -/
theorem C2_witness :
    Hasher.HashPassword idKeyToy bcToy hasherSmall [7] [1] "argon2" =
      Except.ok (hasherSmall.hashArgon2 idKeyToy [7] [1]) ∧
    Hasher.ComparePassword idKeyToy bcToy { config := DefaultHashConfig } [1]
      (hasherSmall.hashArgon2 idKeyToy [7] [1]) = Except.ok true ∧
    Hasher.ComparePassword idKeyToy bcToy { config := DefaultHashConfig } [2]
      (hasherSmall.hashArgon2 idKeyToy [7] [1]) = Except.ok false ∧
    Hasher.HashPassword idKeyToy bcToy hasherSmall [7] [1] "bcrypt" =
      Except.ok (bcToyGen [1]) ∧
    Hasher.ComparePassword idKeyToy bcToy { config := DefaultHashConfig } [1]
      (bcToyGen [1]) = Except.ok true ∧
    Hasher.ComparePassword idKeyToy bcToy { config := DefaultHashConfig } [2]
      (bcToyGen [1]) = Except.ok false :=
  C2_hash_verify idKeyToy bcToy hasherSmall { config := DefaultHashConfig }
    [7] [1] [2] (bcToyGen [1]) (by decide) (by decide) (by decide) (by decide)
    (by decide) (by decide) (by decide) (by decide) rfl (by decide)
    (by decide) (by decide)

/-! ### Claim C5: malformed hashes are errors, never a false match -/

/-- Claim C5: a hash string that fails any stage of parsing — wrong field
count, unknown variant tag, unscannable version or parameters, undecodable
salt or digest on the Argon2 path, or a structurally invalid bcrypt hash
on the bcrypt path — makes Verify return an error; it is never reported as
a false match. -/
theorem C5_malformed (idKey : IDKeyFn) (bc : BcryptModel) (hv : Hasher)
    (pw : List Byte) (hash : String) (m : String) :
    (bcryptDetect hash = false →
      ((splitArgon2Hash hash).length ≠ 6 ∨
        (splitArgon2Hash hash).getD 1 "" ≠ "argon2id" ∨
        scanVersion ((splitArgon2Hash hash).getD 2 "") = none ∨
        scanParams ((splitArgon2Hash hash).getD 3 "") = none ∨
        b64DecodeRaw ((splitArgon2Hash hash).getD 4 "") = none ∨
        b64DecodeRaw ((splitArgon2Hash hash).getD 5 "") = none) →
      exceptIsErr (Hasher.ComparePassword idKey bc hv pw hash) = true) ∧
    (bcryptDetect hash = true → bc.compare hash pw = BcryptOutcome.failed m →
      exceptIsErr (Hasher.ComparePassword idKey bc hv pw hash) = true) := by
  constructor
  · intro hdet hbad
    by_cases hpw : pw.isEmpty
    · simp [Hasher.ComparePassword, hpw, exceptIsErr]
    by_cases hh : hash = ""
    · simp [Hasher.ComparePassword, hh, exceptIsErr]
    rw [ComparePassword_to_argon2 idKey bc hv pw hash
      (by intro habs; rw [habs] at hpw; exact hpw rfl) hh hdet]
    unfold Hasher.compareArgon2
    by_cases h6 : (splitArgon2Hash hash).length ≠ 6
    · rw [if_pos h6]
      rfl
    rw [if_neg h6]
    by_cases hvar : (splitArgon2Hash hash).getD 1 "" ≠ "argon2id"
    · rw [if_pos hvar]
      rfl
    rw [if_neg hvar]
    cases hver : scanVersion ((splitArgon2Hash hash).getD 2 "") with
    | none => rfl
    | some v =>
      cases hpar : scanParams ((splitArgon2Hash hash).getD 3 "") with
      | none => rfl
      | some triple =>
        obtain ⟨mem, tim, thr⟩ := triple
        cases hsalt : b64DecodeRaw ((splitArgon2Hash hash).getD 4 "") with
        | none => rfl
        | some ds =>
          cases hhash : b64DecodeRaw ((splitArgon2Hash hash).getD 5 "") with
          | none => rfl
          | some dh =>
            exfalso
            rcases hbad with hb | hb | hb | hb | hb | hb
            · exact h6 hb
            · exact hvar hb
            · rw [hver] at hb
              cases hb
            · rw [hpar] at hb
              cases hb
            · rw [hsalt] at hb
              cases hb
            · rw [hhash] at hb
              cases hb
  · intro hdet hcmp
    by_cases hpw : pw.isEmpty
    · simp [Hasher.ComparePassword, hpw, exceptIsErr]
    by_cases hh : hash = ""
    · simp [Hasher.ComparePassword, hh, exceptIsErr]
    simp [Hasher.ComparePassword, hpw, hh, hdet, Hasher.compareBcrypt, hcmp,
      exceptIsErr]

/-- Claim C5, witness: a string with no delimiters fails the field-count
check and yields an error on the Argon2 path, and a structurally invalid
bcrypt-prefixed string yields an error on the bcrypt path. -/
theorem C5_witness :
    exceptIsErr (Hasher.ComparePassword idKeyToy bcToy hasherSmall [1] "nothash") =
      true ∧
    exceptIsErr (Hasher.ComparePassword idKeyToy bcFail hasherSmall [1] "$2a$junk") =
      true :=
  ⟨(C5_malformed idKeyToy bcToy hasherSmall [1] "nothash" "").1 (by decide)
      (Or.inl (by decide)),
    (C5_malformed idKeyToy bcFail hasherSmall [1] "$2a$junk"
      "hashedSecret too short to be a bcrypted password").2 (by decide) rfl⟩

/-! ### Helper lemmas: classification of modelled jwt/v5 error text -/

theorem hpe_keyfunc :
    handleParseError
      "token is unverifiable: error while executing keyfunc: invalid token algorithm" =
    errWrap "token is unverifiable: error while executing keyfunc: invalid token algorithm"
      ErrorCode.codeInvalidToken "failed to parse token" := by
  decide

theorem hpe_expired_any (ny : Bool) :
    handleParseError (JwtLibError.invalidClaims true ny).errMsg =
      errNew ErrorCode.codeTokenExpired "token has expired" := by
  cases ny <;> decide

/-! ### Claim C3: algorithm-confusion defense -/

/-- Claim C3: a token whose header declares an algorithm different from
the manager's configured one is rejected by ParseToken with an error:
the keyfunc fails before any signature verification, so the rejection
holds for every signing model `S` — in particular for one whose key would
accept the raw signature bytes.  The resulting error is the generic
parse-failure error carrying the keyfunc error text. -/
theorem C3_alg_confusion (S : SignModel) (m : JWTManager) (now : Int) (tok : Token)
    (halg : tok.alg ≠ m.config.algorithm) :
    JWTManager.ParseToken S m now tok =
      Except.error (errWrap
        "token is unverifiable: error while executing keyfunc: invalid token algorithm"
        ErrorCode.codeInvalidToken "failed to parse token") := by
  unfold JWTManager.ParseToken parseWithClaims JWTManager.keyfunc
  rw [if_pos halg]
  exact congrArg Except.error hpe_keyfunc

/-- Claim C3, witness: a manager configured for HS256 rejects an RS256
token even under a signing model that verifies every signature. -/
theorem C3_witness :
    JWTManager.ParseToken signToy mgrToy 0
      { alg := "RS256", claims := claimsToy, sig := 0 } =
      Except.error (errWrap
        "token is unverifiable: error while executing keyfunc: invalid token algorithm"
        ErrorCode.codeInvalidToken "failed to parse token") :=
  C3_alg_confusion signToy mgrToy 0
    { alg := "RS256", claims := claimsToy, sig := 0 } (by decide)

/-! ### Claim C4: order of the issuer and temporal checks -/

/-- Claim C4, counterexample: a token that both names a wrong issuer and
is expired is reported as Expired, not IssuerMismatch — the jwt/v5 library
validates the temporal claims during parse, before the manager's issuer
check runs. -/
theorem C4_counterexample :
    JWTManager.ParseToken signToy mgrToy 10
      { alg := "HS256"
        claims :=
          { issuer := "evil", subject := "", audience := ["api"],
            expiresAt := some 5, notBefore := some 0, issuedAt := some 0,
            userID := "u", username := "", email := "", roles := [],
            custom := [] }
        sig := 0 } =
      Except.error (errNew ErrorCode.codeTokenExpired "token has expired") ∧
    errNew ErrorCode.codeTokenExpired "token has expired" ≠
      errUnauthorized "invalid token issuer" := by
  constructor
  · rfl
  · decide

/-- Claim C4, amended: the temporal checks run during the library parse,
before the manager's issuer and audience checks; hence every token whose
header algorithm matches, whose signature verifies, and whose expiry is
not after the current time is reported as Expired, whatever its issuer and
audience say. -/
theorem C4_temporal_first (S : SignModel) (m : JWTManager) (now e : Int)
    (tok : Token)
    (halg : tok.alg = m.config.algorithm)
    (hver : S.verify tok.alg m.getVerificationKey tok.claims tok.sig = true)
    (hexp : tok.claims.expiresAt = some e)
    (hle : e ≤ now) :
    JWTManager.ParseToken S m now tok =
      Except.error (errNew ErrorCode.codeTokenExpired "token has expired") := by
  unfold JWTManager.ParseToken parseWithClaims JWTManager.keyfunc
  rw [if_neg (by simp [halg])]
  dsimp only
  rw [hver, hexp]
  dsimp only
  rw [decide_eq_true hle, Bool.true_or]
  rw [if_pos rfl]
  exact congrArg Except.error (hpe_expired_any _)

/-- Claim C4, witness: the amended statement at a concrete expired token
with a wrong issuer. -/
theorem C4_witness :
    JWTManager.ParseToken signToy mgrToy 10
      { alg := "HS256"
        claims :=
          { issuer := "evil", subject := "", audience := ["api"],
            expiresAt := some 5, notBefore := some 0, issuedAt := some 0,
            userID := "u", username := "", email := "", roles := [],
            custom := [] }
        sig := 0 } =
      Except.error (errNew ErrorCode.codeTokenExpired "token has expired") :=
  C4_temporal_first signToy mgrToy 10 5
    { alg := "HS256"
      claims :=
        { issuer := "evil", subject := "", audience := ["api"],
          expiresAt := some 5, notBefore := some 0, issuedAt := some 0,
          userID := "u", username := "", email := "", roles := [],
          custom := [] }
      sig := 0 } rfl rfl rfl (by omega)

/-! ### Claim C6: expiry strictly after issuance -/

/-- Claim C6, counterexample: with a zero access-token TTL, a generated
token's expires-at equals its issued-at and not-before, so expiry is not
strictly after issuance. -/
theorem C6_counterexample :
    (JWTManager.GenerateToken signToy mgrZero 5 claimsToy
      TokenType.access).claims.issuedAt = some 5 ∧
    (JWTManager.GenerateToken signToy mgrZero 5 claimsToy
      TokenType.access).claims.notBefore = some 5 ∧
    (JWTManager.GenerateToken signToy mgrZero 5 claimsToy
      TokenType.access).claims.expiresAt = some 5 ∧
    ¬ ((5 : Int) < 5) :=
  ⟨rfl, rfl, rfl, by decide⟩

/-- Claim C6, amended: whenever the TTL selected by the token type is
positive, every generated token stamps issued-at and not-before with the
current time and expires-at strictly after both. -/
theorem C6_expiry_after_issue (S : SignModel) (m : JWTManager) (now : Int)
    (claims : Claims) (tt : TokenType)
    (hpos : 0 < (if tt = TokenType.access then m.config.accessTokenExpiry
      else m.config.refreshTokenExpiry)) :
    (JWTManager.GenerateToken S m now claims tt).claims.issuedAt = some now ∧
    (JWTManager.GenerateToken S m now claims tt).claims.notBefore = some now ∧
    (JWTManager.GenerateToken S m now claims tt).claims.expiresAt =
      some (now + (if tt = TokenType.access then m.config.accessTokenExpiry
        else m.config.refreshTokenExpiry)) ∧
    now < now + (if tt = TokenType.access then m.config.accessTokenExpiry
      else m.config.refreshTokenExpiry) :=
  ⟨rfl, rfl, rfl, by omega⟩

/-- Claim C6, witness: the amended invariant at a concrete manager with a
positive TTL. -/
theorem C6_witness :
    (JWTManager.GenerateToken signToy mgrToy 0 claimsToy
      TokenType.access).claims.issuedAt = some 0 ∧
    (JWTManager.GenerateToken signToy mgrToy 0 claimsToy
      TokenType.access).claims.notBefore = some 0 ∧
    (JWTManager.GenerateToken signToy mgrToy 0 claimsToy
      TokenType.access).claims.expiresAt =
      some (0 + (if TokenType.access = TokenType.access
        then mgrToy.config.accessTokenExpiry
        else mgrToy.config.refreshTokenExpiry)) ∧
    (0 : Int) < 0 + (if TokenType.access = TokenType.access
      then mgrToy.config.accessTokenExpiry
      else mgrToy.config.refreshTokenExpiry) :=
  C6_expiry_after_issue signToy mgrToy 0 claimsToy TokenType.access (by decide)

/-! ### Claim C8: refresh carries identity, restamps time -/

/-- Claim C8: for every token that fully verifies, RefreshToken mints a
new access token whose claims carry exactly the parsed token's identity
fields (user id, username, email, roles, custom map; the registered
subject field, never stamped by this manager, is left empty), while
issuer, audience, issued-at, not-before and expires-at are stamped from
the manager's configuration and the current time — never copied from the
old token. -/
theorem C8_refresh_identity (S : SignModel) (m : JWTManager) (now : Int)
    (tok : Token) (c : Claims)
    (hparse : JWTManager.ParseToken S m now tok = Except.ok c) :
    JWTManager.RefreshToken S m now tok = Except.ok
      { alg := m.getSigningMethod
        claims :=
          { issuer := m.config.issuer, subject := "",
            audience := [m.config.audience],
            expiresAt := some (now + m.config.accessTokenExpiry),
            notBefore := some now, issuedAt := some now,
            userID := c.userID, username := c.username, email := c.email,
            roles := c.roles, custom := c.custom }
        sig := S.sign m.getSigningMethod m.getSigningKey
          { issuer := m.config.issuer, subject := "",
            audience := [m.config.audience],
            expiresAt := some (now + m.config.accessTokenExpiry),
            notBefore := some now, issuedAt := some now,
            userID := c.userID, username := c.username, email := c.email,
            roles := c.roles, custom := c.custom } } := by
  unfold JWTManager.RefreshToken
  rw [hparse]
  rfl

/-- Claim C8, witness: refreshing a concrete refresh token at time 10
yields an access token with the original identity fields and fresh
stamps. -/
theorem C8_witness :
    JWTManager.RefreshToken signToy mgrToy 10
      (JWTManager.GenerateToken signToy mgrToy 0 claimsToy TokenType.refresh) =
      Except.ok
        { alg := "HS256"
          claims :=
            { issuer := "svc", subject := "", audience := ["api"],
              expiresAt := some 910, notBefore := some 10, issuedAt := some 10,
              userID := "user123", username := "john", email := "j@x",
              roles := ["admin"], custom := [("k", "v")] }
          sig := 0 } :=
  C8_refresh_identity signToy mgrToy 10
    (JWTManager.GenerateToken signToy mgrToy 0 claimsToy TokenType.refresh)
    (JWTManager.GenerateToken signToy mgrToy 0 claimsToy TokenType.refresh).claims
    rfl

/-! ### Claim C10: refresh does not check the token type -/

/-- Claim C10: the claims carry no field recording the token type, so
RefreshToken accepts any token ParseToken accepts — in particular a token
minted with the Access TTL — and mints a new access token from its
identity fields. -/
theorem C10_refresh_access_token (S : SignModel) (m : JWTManager)
    (claims : Claims) (now0 now1 : Int) (c : Claims)
    (hparse : JWTManager.ParseToken S m now1
      (JWTManager.GenerateToken S m now0 claims TokenType.access) =
      Except.ok c) :
    JWTManager.RefreshToken S m now1
      (JWTManager.GenerateToken S m now0 claims TokenType.access) =
      Except.ok (JWTManager.GenerateToken S m now1
        { issuer := "", subject := "", audience := [], expiresAt := none,
          notBefore := none, issuedAt := none, userID := c.userID,
          username := c.username, email := c.email, roles := c.roles,
          custom := c.custom } TokenType.access) := by
  unfold JWTManager.RefreshToken
  rw [hparse]

/-- Claim C10, witness: an access token minted at time 0 still parses at
time 10, and RefreshToken then succeeds on it. -/
theorem C10_witness :
    JWTManager.RefreshToken signToy mgrToy 10
      (JWTManager.GenerateToken signToy mgrToy 0 claimsToy TokenType.access) =
      Except.ok (JWTManager.GenerateToken signToy mgrToy 10
        { issuer := "", subject := "", audience := [], expiresAt := none,
          notBefore := none, issuedAt := none, userID := "user123",
          username := "john", email := "j@x", roles := ["admin"],
          custom := [("k", "v")] } TokenType.access) :=
  C10_refresh_access_token signToy mgrToy claimsToy 0 10
    (JWTManager.GenerateToken signToy mgrToy 0 claimsToy TokenType.access).claims
    rfl
